import Mathlib

/-!
Verification of the admission-control layer of the mindra repository:
token-bucket rate limiters (`ai_architecture/core/rate_limiter.py`),
response cache (`ai_architecture/core/cache.py`), load balancer
(`ai_architecture/core/load_balancer.py`) and the middleware gluing them
(`ai_architecture/middleware/rate_limit_middleware.py`).

Python floats are modelled as exact rationals (`ℚ`), Python dicts as
association lists preserving insertion order, and every distinct
`time.time()` read inside one operation is modelled by the single
evaluation instant `now` passed to that operation.  Fallible code
returns `Option`/`Except`.
-/

set_option maxRecDepth 4000

/-! ## Python dict primitives (insertion-ordered association lists) -/

/-- `d[k]` lookup: first binding of `k`, `none` when absent. -/
def dictGet {β : Type} (d : List (String × β)) (k : String) : Option β :=
  match d with
  | [] => none
  | (k', v) :: rest => if k' = k then some v else dictGet rest k

/-- `d[k] = v` assignment: replace the binding in place when present,
append at the end when absent (Python dicts keep insertion order). -/
def dictSet {β : Type} (d : List (String × β)) (k : String) (v : β) :
    List (String × β) :=
  match d with
  | [] => [(k, v)]
  | (k', v') :: rest =>
      if k' = k then (k, v) :: rest else (k', v') :: dictSet rest k v

/-- `del d[k]`: on a dict (unique keys) this removes the single binding of
`k`; on the association lists reachable from the code the filter form is
identical. -/
def dictDel {β : Type} (d : List (String × β)) (k : String) :
    List (String × β) :=
  d.filter (fun p => p.1 ≠ k)

/-- `defaultdict` subscript access: return the binding when present,
otherwise insert the default value for the key and return it. -/
def dictGetDefault {β : Type} (d : List (String × β)) (k : String) (v0 : β) :
    β × List (String × β) :=
  match dictGet d k with
  | some v => (v, d)
  | none => (v0, d ++ [(k, v0)])

theorem dictGet_set_self {β : Type} (d : List (String × β)) (k : String) (v : β) :
    dictGet (dictSet d k v) k = some v := by
  induction d with
  | nil => simp [dictGet, dictSet]
  | cons p rest ih =>
      by_cases h : p.1 = k
      · simp [dictGet, dictSet, h]
      · simp [dictGet, dictSet, h, ih]

theorem dictGet_set_ne {β : Type} (d : List (String × β)) (k k2 : String) (v : β)
    (hne : k2 ≠ k) : dictGet (dictSet d k v) k2 = dictGet d k2 := by
  have hne2 : ¬ k = k2 := fun h => hne h.symm
  induction d with
  | nil => simp [dictGet, dictSet, hne2]
  | cons p rest ih =>
      by_cases h : p.1 = k
      · simp [dictGet, dictSet, h, hne2, h ▸ hne2]
      · simp only [dictSet, if_neg h, dictGet]
        by_cases h2 : p.1 = k2 <;> simp [h2, ih]

theorem dictGet_del_self {β : Type} (d : List (String × β)) (k : String) :
    dictGet (dictDel d k) k = none := by
  induction d with
  | nil => simp [dictGet, dictDel]
  | cons p rest ih =>
      by_cases h : p.1 = k
      · simpa [dictDel, dictGet, h] using ih
      · simpa [dictDel, dictGet, h] using ih

/-- Membership of a value in the dict after `dictSet`: it is the new value
at `k` or an old binding of another key. -/
theorem mem_dictSet {β : Type} (d : List (String × β)) (k : String) (v : β)
    (p : String × β) (hp : p ∈ dictSet d k v) : p = (k, v) ∨ p ∈ d := by
  induction d with
  | nil => simpa [dictSet] using hp
  | cons q rest ih =>
      by_cases h : q.1 = k
      · simp only [dictSet, if_pos h, List.mem_cons] at hp
        rcases hp with h1 | h1
        · exact Or.inl h1
        · exact Or.inr (List.mem_cons_of_mem _ h1)
      · simp only [dictSet, if_neg h, List.mem_cons] at hp
        rcases hp with h1 | h1
        · exact Or.inr (h1 ▸ List.mem_cons_self _ _)
        · rcases ih h1 with h2 | h2
          · exact Or.inl h2
          · exact Or.inr (List.mem_cons_of_mem _ h2)

/-- Python `int()` applied to a float: truncation toward zero. -/
def pyInt (q : ℚ) : ℤ :=
  if 0 ≤ q then ⌊q⌋ else ⌈q⌉

/-- Python truthiness resolution `x or d` for an optional integer argument
(`0` is falsy, so `0 or d = d`). -/
def orDefault (x : Option ℕ) (d : ℕ) : ℕ :=
  match x with
  | none => d
  | some n => if n = 0 then d else n

/-! ## Single-tier limiter: `LocalRateLimiter` (`rate_limiter.py` 54-135)

A bucket is stored exactly as in the source: the tuple
`(tokens, last_update, rate)`. -/

/-- `RateLimitInfo` dataclass (`rate_limiter.py` 21-27). -/
structure RateLimitInfo where
  remaining : ℤ
  reset_time : ℚ
  limit : ℕ
  window : ℕ
deriving DecidableEq, Repr

/-- State of `LocalRateLimiter` (`rate_limiter.py` 57-65): defaults plus
the bucket dict `key ↦ (tokens, last_update, rate)`.  The `_last_accessed`
recency deque is never consulted by any modelled operation and is omitted. -/
structure LocalRateLimiter where
  default_limit : ℕ
  default_window : ℕ
  buckets : List (String × (ℚ × ℚ × ℚ))
deriving DecidableEq, Repr

/-- `_get_bucket_key` (`rate_limiter.py` 67-69); an empty namespace string
is falsy in Python and is treated like `None`. -/
def getBucketKey (key : String) (ns : Option String) : String :=
  match ns with
  | some n => if n = "" then key else n ++ ":" ++ key
  | none => key

/-- `_get_bucket` (`rate_limiter.py` 71-84): look up the bucket, creating
it with a full allotment at the current instant when absent. -/
def getBucket (st : LocalRateLimiter) (key : String)
    (limit window : Option ℕ) (now : ℚ) :
    (ℚ × ℚ × ℚ) × LocalRateLimiter :=
  let l := orDefault limit st.default_limit
  let w := orDefault window st.default_window
  let rate : ℚ := (l : ℚ) / (w : ℚ)
  match dictGet st.buckets key with
  | some b => (b, st)
  | none =>
      let b : ℚ × ℚ × ℚ := ((l : ℚ), now, rate)
      (b, { st with buckets := dictSet st.buckets key b })

/-- `_refill_tokens` (`rate_limiter.py` 86-97): cap the balance at
`max_tokens` after crediting the elapsed time, and return the new
timestamp. -/
def refillTokens (tokens lastUpdate rate : ℚ) (maxTokens : ℕ) (now : ℚ) :
    ℚ × ℚ :=
  (min (maxTokens : ℚ) (tokens + (now - lastUpdate) * rate), now)

/-- `LocalRateLimiter.acquire` (`rate_limiter.py` 99-130). -/
def LocalRateLimiter.acquire (st : LocalRateLimiter) (key : String)
    (ns : Option String) (limit window : Option ℕ) (now : ℚ) :
    (Bool × RateLimitInfo) × LocalRateLimiter :=
  let bucketKey := getBucketKey key ns
  let l := orDefault limit st.default_limit
  let w := orDefault window st.default_window
  let p := getBucket st bucketKey (some l) (some w) now
  let b := p.1
  let st1 := p.2
  let t := refillTokens b.1 b.2.1 b.2.2 l now
  let tokens := t.1
  let tnow := t.2
  if 1 ≤ tokens then
    ((true, ⟨pyInt (tokens - 1), tnow + 1 / b.2.2, l, w⟩),
      { st1 with buckets := dictSet st1.buckets bucketKey (tokens - 1, tnow, b.2.2) })
  else
    ((false, ⟨0, tnow + (1 - tokens) / b.2.2, l, w⟩), st1)

/-- The token count the bucket holds after the refill step inside
`acquire` (lines 112-113), before the admission decision. -/
def acquirePostRefill (st : LocalRateLimiter) (key : String)
    (ns : Option String) (limit window : Option ℕ) (now : ℚ) : ℚ :=
  let l := orDefault limit st.default_limit
  let w := orDefault window st.default_window
  let b := (getBucket st (getBucketKey key ns) (some l) (some w) now).1
  (refillTokens b.1 b.2.1 b.2.2 l now).1

/-- The per-second refill rate of the bucket consulted by `acquire`. -/
def acquireBucketRate (st : LocalRateLimiter) (key : String)
    (ns : Option String) (limit window : Option ℕ) (now : ℚ) : ℚ :=
  let l := orDefault limit st.default_limit
  let w := orDefault window st.default_window
  ((getBucket st (getBucketKey key ns) (some l) (some w) now).1).2.2

/-! ## Multi-tier limiter: `RateLimiter` (`rate_limiter.py` 191-308) -/

/-- `RateLimitBucket` dataclass (`rate_limiter.py` 191-197). -/
structure RateLimitBucket where
  tokens : ℚ
  last_update : ℚ
  max_tokens : ℤ
  refill_rate : ℚ
deriving DecidableEq, Repr

/-- The per-tier limits read from `Config.RATE_LIMIT_SETTINGS`
(`config/config.py` 35-58). -/
structure RateConfig where
  global_limit : ℕ
  user_limit_per_minute : ℕ
  user_limit_per_hour : ℕ
  user_limit_per_day : ℕ
  ip_limit_per_minute : ℕ
  ip_limit_per_hour : ℕ
  ip_limit_per_day : ℕ
deriving DecidableEq, Repr

/-- The concrete values of `Config.RATE_LIMIT_SETTINGS` in the repository. -/
def mindraConfig : RateConfig :=
  ⟨1900, 2, 60, 300, 10, 200, 500⟩

/-- `_refill_bucket` (`rate_limiter.py` 214-222): credit the elapsed time,
cap at `max_tokens`, stamp `last_update := now` — all in place. -/
def refillBucket (b : RateLimitBucket) (now : ℚ) : RateLimitBucket :=
  { b with
    tokens := min (b.max_tokens : ℚ) (b.tokens + (now - b.last_update) * b.refill_rate),
    last_update := now }

/-- A bucket created at full allotment, as in `RateLimiter.__init__` and
the lazy per-identity creation inside `check_rate_limit`. -/
def freshBucket (limit : ℕ) (now : ℚ) (window : ℕ) : RateLimitBucket :=
  { tokens := (limit : ℚ), last_update := now, max_tokens := (limit : ℤ),
    refill_rate := (limit : ℚ) / (window : ℚ) }

/-- The dict of three user buckets created on first sight of a user
(`rate_limiter.py` 233-253); Python dicts keep the insertion order
minute, hour, day. -/
def newUserBuckets (cfg : RateConfig) (now : ℚ) :
    List (String × RateLimitBucket) :=
  [("minute", freshBucket cfg.user_limit_per_minute now 60),
   ("hour", freshBucket cfg.user_limit_per_hour now 3600),
   ("day", freshBucket cfg.user_limit_per_day now 86400)]

/-- The dict of three IP buckets created on first sight of an IP
(`rate_limiter.py` 261-281). -/
def newIpBuckets (cfg : RateConfig) (now : ℚ) :
    List (String × RateLimitBucket) :=
  [("minute", freshBucket cfg.ip_limit_per_minute now 60),
   ("hour", freshBucket cfg.ip_limit_per_hour now 3600),
   ("day", freshBucket cfg.ip_limit_per_day now 86400)]

/-- The loop `for bucket in d.values(): _refill_bucket(bucket); if
bucket.tokens < 1: return False` (`rate_limiter.py` 255-258, 283-286):
buckets are refilled in place one at a time and the loop stops at the
first bucket left with fewer than one token, leaving later buckets
untouched. -/
def refillCheckList :
    List (String × RateLimitBucket) → ℚ → Bool × List (String × RateLimitBucket)
  | [], _ => (true, [])
  | (k, b) :: rest, now =>
      let b2 := refillBucket b now
      if b2.tokens < 1 then (false, (k, b2) :: rest)
      else
        let r := refillCheckList rest now
        (r.1, (k, b2) :: r.2)

/-- `bucket.tokens -= 1` applied to every bucket of a tier dict
(`rate_limiter.py` 290-293). -/
def consumeOne (d : List (String × RateLimitBucket)) :
    List (String × RateLimitBucket) :=
  d.map (fun p => (p.1, { p.2 with tokens := p.2.tokens - 1 }))

/-- State of the multi-tier `RateLimiter` (`rate_limiter.py` 202-212):
one global bucket plus `defaultdict` maps of per-user and per-IP tier
dicts. -/
structure RateLimiter where
  global_bucket : RateLimitBucket
  user_buckets : List (String × List (String × RateLimitBucket))
  ip_buckets : List (String × List (String × RateLimitBucket))
deriving DecidableEq, Repr

/-- One identity stage of `check_rate_limit`: create the tier dict at
full allotment when the identity is unseen (`if key not in map` does not
trigger the defaultdict), then run the refill-and-check loop over its
buckets and write the partially refilled dict back. -/
def tierCheck (m : List (String × List (String × RateLimitBucket)))
    (key : String) (mk0 : List (String × RateLimitBucket)) (now : ℚ) :
    Bool × List (String × List (String × RateLimitBucket)) :=
  let m1 := match dictGet m key with
            | some _ => m
            | none => dictSet m key mk0
  let d := (dictGet m1 key).getD []
  let r := refillCheckList d now
  (r.1, dictSet m1 key r.2)

/-- `RateLimiter.check_rate_limit` (`rate_limiter.py` 224-295): refill
and test the global bucket, then the user tier, then the IP tier,
returning `False` at the first exhausted bucket; only when all pass is
one token consumed from each of the seven buckets. -/
def checkRateLimit (cfg : RateConfig) (st : RateLimiter)
    (userId ip : String) (now : ℚ) : Bool × RateLimiter :=
  let g := refillBucket st.global_bucket now
  if g.tokens < 1 then (false, { st with global_bucket := g })
  else
    let u := tierCheck st.user_buckets userId (newUserBuckets cfg now) now
    if u.1 then
      let i := tierCheck st.ip_buckets ip (newIpBuckets cfg now) now
      if i.1 then
        (true,
          { global_bucket := { g with tokens := g.tokens - 1 },
            user_buckets := dictSet u.2 userId
              (consumeOne ((dictGet u.2 userId).getD [])),
            ip_buckets := dictSet i.2 ip
              (consumeOne ((dictGet i.2 ip).getD [])) })
      else (false, { st with global_bucket := g, user_buckets := u.2,
                             ip_buckets := i.2 })
    else (false, { st with global_bucket := g, user_buckets := u.2 })

/-- The snapshot dict returned by `get_remaining_tokens`
(`rate_limiter.py` 300-308). -/
structure RemainingTokens where
  global_count : ℤ
  user_minute : ℤ
  user_hour : ℤ
  user_day : ℤ
  ip_minute : ℤ
  ip_hour : ℤ
  ip_day : ℤ
deriving DecidableEq, Repr

/-- `RateLimiter.get_remaining_tokens` (`rate_limiter.py` 297-308).  The
maps are `defaultdict(dict)`, so subscripting an unseen identity inserts
an empty tier dict and the subsequent `["minute"]` lookup raises
`KeyError`, modelled as the `none` result; the insertion survives the
exception. -/
def getRemainingTokens (st : RateLimiter) (userId ip : String) :
    Option RemainingTokens × RateLimiter :=
  let up := dictGetDefault st.user_buckets userId []
  let st1 := { st with user_buckets := up.2 }
  match dictGet up.1 "minute", dictGet up.1 "hour", dictGet up.1 "day" with
  | some um, some uh, some ud =>
      let ipp := dictGetDefault st1.ip_buckets ip []
      let st2 := { st1 with ip_buckets := ipp.2 }
      match dictGet ipp.1 "minute", dictGet ipp.1 "hour", dictGet ipp.1 "day" with
      | some im, some ih, some idy =>
          (some ⟨pyInt st.global_bucket.tokens, pyInt um.tokens,
                 pyInt uh.tokens, pyInt ud.tokens, pyInt im.tokens,
                 pyInt ih.tokens, pyInt idy.tokens⟩, st2)
      | _, _, _ => (none, st2)
  | _, _, _ => (none, st1)

/-! ## Response cache: `ResponseCache` (`cache.py` 9-39)

Values are modelled as `Option String`: `none` is the Python `None`,
`some s` any other value, with `some ""` the empty value. -/

/-- The cache map `key ↦ (value, expiry)` (`cache.py` 15). -/
abbrev Cache := List (String × (String × ℚ))

/-- `ResponseCache.get` (`cache.py` 18-26): return the value while
`expiry > now`, otherwise delete the entry lazily and return `None`. -/
def cacheGet (c : Cache) (key : String) (now : ℚ) : Option String × Cache :=
  match dictGet c key with
  | none => (none, c)
  | some (v, expiry) => if now < expiry then (some v, c) else (none, dictDel c key)

/-- `ResponseCache.set` (`cache.py` 28-34): a `None` value is never
stored; any other value is stored with expiry `now + (ttl if ttl is not
None else default_ttl)`. -/
def cacheSet (c : Cache) (key : String) (value : Option String)
    (ttl : Option ℚ) (defaultTtl now : ℚ) : Cache :=
  match value with
  | none => c
  | some v => dictSet c key (v, now + ttl.getD defaultTtl)

/-! ## Load balancer (`load_balancer.py` 8-114) -/

/-- The bounded `asyncio.Queue` inside `RequestQueue`
(`load_balancer.py` 11-25): with no concurrent consumer, the bounded
blocking `put` succeeds exactly when the queue has room. -/
structure RequestQueue where
  queue : List ℕ
  maxsize : ℕ
deriving DecidableEq, Repr

/-- `RequestQueue.add_request` (`load_balancer.py` 16-25). -/
def addRequest (q : RequestQueue) (r : ℕ) : Bool × RequestQueue :=
  if q.queue.length < q.maxsize then (true, { q with queue := q.queue ++ [r] })
  else (false, q)

/-- `LoadBalancer` state (`load_balancer.py` 56-59). -/
structure LoadBalancer where
  rq : RequestQueue
  current_requests : ℤ
deriving DecidableEq, Repr

/-- What one call to `LoadBalancer.handle_request` does with a request
before any handler result is produced. -/
inductive LBEvent where
  /-- The overload result `{error, queue_size, retry_after}` was returned
  and the handler was not invoked. -/
  | rejected (queue_size : ℕ)
  /-- `current_requests` was incremented and the handler was invoked in
  this call; `enqueuedAlso` records whether the request was *also* placed
  on the queue by this same call. -/
  | invoked (enqueuedAlso : Bool)
deriving DecidableEq, Repr

/-- The admission decision of `LoadBalancer.handle_request`
(`load_balancer.py` 76-88).  The Python condition is
`current_requests >= max_in_flight and not await add_request(request)`:
when the counter is at or above the cap, `add_request` runs for its side
effect, and only when it *fails* is the overload result returned; in
every other case the counter is incremented and the handler invoked. -/
def handleRequestLB (lb : LoadBalancer) (maxInFlight : ℕ) (r : ℕ) :
    LBEvent × LoadBalancer :=
  if (maxInFlight : ℤ) ≤ lb.current_requests then
    let a := addRequest lb.rq r
    if a.1 then
      (LBEvent.invoked true,
        { rq := a.2, current_requests := lb.current_requests + 1 })
    else (LBEvent.rejected a.2.queue.length, { lb with rq := a.2 })
  else
    (LBEvent.invoked false, { lb with current_requests := lb.current_requests + 1 })

/-! ## Middleware (`rate_limit_middleware.py` 29-61) -/

/-- The two normal-return shapes of `RateLimitMiddleware.handle_request`:
the load balancer's response for an admitted request, or the structured
rate-limit error `{error, remaining_tokens, retry_after}`. -/
inductive MWResponse (α : Type) where
  | forwarded (result : α)
  | rateLimited (remaining_tokens : RemainingTokens) (retry_after : ℚ)
deriving DecidableEq

/-- `RateLimitMiddleware.handle_request` (`rate_limit_middleware.py`
29-61): check the multi-tier limiter first; on rejection build the error
object from `get_remaining_tokens` (whose `KeyError` propagates,
modelled as `Except.error`); on acceptance delegate to the load
balancer, whose eventual response is the abstract `lbResult`. -/
def mwHandleRequest {α : Type} (cfg : RateConfig) (retryDelay : ℚ)
    (st : RateLimiter) (userId ip : String) (now : ℚ) (lbResult : α) :
    Except String (MWResponse α) × RateLimiter :=
  let c := checkRateLimit cfg st userId ip now
  if c.1 then (Except.ok (MWResponse.forwarded lbResult), c.2)
  else
    let r := getRemainingTokens c.2 userId ip
    match r.1 with
    | some snap => (Except.ok (MWResponse.rateLimited snap retryDelay), r.2)
    | none => (Except.error "KeyError", r.2)

/-! ## Claims about the response cache -/

/-- **C8.** Expired entries are deleted on read and never returned again:
if the stored entry for `key` has `expiry ≤ now`, `get` returns `None`,
removes the entry during that same read, and any later `get` of the key
(absent an intervening write) also returns `None` and leaves the cache
unchanged. -/
theorem cacheGet_expired_deletes (c : Cache) (key v : String) (expiry now : ℚ)
    (hmem : dictGet c key = some (v, expiry)) (hexp : expiry ≤ now) :
    (cacheGet c key now).1 = none ∧
    dictGet (cacheGet c key now).2 key = none ∧
    ∀ t : ℚ, cacheGet (cacheGet c key now).2 key t = (none, (cacheGet c key now).2) := by
  have hlt : ¬ now < expiry := not_lt.mpr hexp
  have hres : cacheGet c key now = (none, dictDel c key) := by
    simp [cacheGet, hmem, hlt]
  refine ⟨by simp [hres], ?_, ?_⟩
  · simp [hres, dictGet_del_self]
  · intro t
    rw [hres]
    simp [cacheGet, dictGet_del_self]

/-- Witness for C8 at the concrete cache `{"k": ("v", 5)}` read at time 5. -/
theorem cacheGet_expired_deletes_inst :
    (cacheGet [("k", ("v", 5))] "k" 5).1 = none ∧
    dictGet (cacheGet [("k", ("v", 5))] "k" 5).2 "k" = none ∧
    ∀ t : ℚ, cacheGet (cacheGet [("k", ("v", 5))] "k" 5).2 "k" t
      = (none, (cacheGet [("k", ("v", 5))] "k" 5).2) :=
  cacheGet_expired_deletes [("k", ("v", 5))] "k" "v" 5 5 rfl (le_refl 5)

/-- **C9 counterexample.** `set` with an *empty* (but non-`None`) value is
not a no-op: `set("k", "", ttl=1)` on an empty cache stores the entry, the
map changes, and an immediate `get("k")` now returns the empty value. -/
theorem cacheSet_empty_value_stored :
    cacheSet [] "k" (some "") (some 1) 3600 0 ≠ ([] : Cache) ∧
    (cacheGet (cacheSet [] "k" (some "") (some 1) 3600 0) "k" 0).1 ≠
      (cacheGet [] "k" 0).1 := by
  constructor
  · simp [cacheSet, dictSet]
  · have h1 : (0:ℚ) < 0 + 1 := by norm_num
    simp [cacheSet, cacheGet, dictSet, dictGet, h1]

/-- **C9 (amended).** `set` with a `None` value is a no-op: nothing is
stored, the cache map is unchanged, and every subsequent `get` returns
exactly what it would have returned before the call.  (Empty non-`None`
values are stored like any other value.) -/
theorem cacheSet_none_noop (c : Cache) (key : String) (ttl : Option ℚ)
    (defaultTtl now : ℚ) :
    cacheSet c key none ttl defaultTtl now = c ∧
    ∀ (k2 : String) (t : ℚ),
      cacheGet (cacheSet c key none ttl defaultTtl now) k2 t = cacheGet c k2 t := by
  exact ⟨rfl, fun k2 t => rfl⟩

/-! ## Claim about the load balancer -/

/-- **C2 (code bug).** At capacity (`current_requests = max_in_flight =
1900`) with room in the queue, one call to `handle_request` both enqueues
the request *and* invokes the handler directly, incrementing
`current_requests` past the cap: the per-request states `Queued` and
`AdmittedDirectly` are not mutually exclusive in the code, and the queued
copy will be executed again later by `process_queue`. -/
theorem handleRequestLB_at_capacity_enqueue_also_invokes :
    handleRequestLB ⟨⟨[], 5000⟩, 1900⟩ 1900 7 =
      (LBEvent.invoked true, ⟨⟨[7], 5000⟩, 1901⟩) := by
  decide

/-! ## Claim about the middleware -/

/-- The concrete multi-tier limiter state after the global bucket has been
drained to zero at time 0 and before any per-user or per-IP bucket exists. -/
def mwDrainedState : RateLimiter :=
  { global_bucket := ⟨0, 0, 1900, 95/3⟩, user_buckets := [], ip_buckets := [] }

/-- **C3 (code bug).** With the global bucket exhausted and a user id and
IP never seen before, `handle_request` does not return the structured
rate-limit error: the rejection path calls `get_remaining_tokens`, which
raises `KeyError` (the `defaultdict` inserts an empty tier dict for the
new user and the `["minute"]` lookup then fails), and the exception
propagates out of `handle_request`. -/
theorem mwHandleRequest_reject_unseen_user_raises :
    (mwHandleRequest mindraConfig 5 mwDrainedState "newuser" "1.2.3.4" 0 (0 : ℕ)).1
      = Except.error "KeyError" := by
  norm_num [mwHandleRequest, mwDrainedState, checkRateLimit, refillBucket,
    getRemainingTokens, dictGetDefault, dictGet, min_def]

/-! ## Claims about the single-tier limiter -/

/-- **C5.** Whenever the consulted bucket holds fewer than one token
after the refill step, `acquire` returns `(False, info)` with
`remaining = 0` and `reset_time = now + (1 - tokens)/rate`, and consumes
nothing: the resulting state is exactly the post-`_get_bucket` state (no
write-back), so for a key that already existed the bucket map is left
untouched. -/
theorem acquire_reject_result (st : LocalRateLimiter) (key : String)
    (ns : Option String) (limit window : Option ℕ) (now : ℚ)
    (ht : acquirePostRefill st key ns limit window now < 1) :
    (LocalRateLimiter.acquire st key ns limit window now).1.1 = false ∧
    (LocalRateLimiter.acquire st key ns limit window now).1.2 =
      ⟨0, now + (1 - acquirePostRefill st key ns limit window now) /
            acquireBucketRate st key ns limit window now,
        orDefault limit st.default_limit, orDefault window st.default_window⟩ ∧
    (LocalRateLimiter.acquire st key ns limit window now).2 =
      (getBucket st (getBucketKey key ns) (some (orDefault limit st.default_limit))
        (some (orDefault window st.default_window)) now).2 ∧
    (∀ v, dictGet st.buckets (getBucketKey key ns) = some v →
      (LocalRateLimiter.acquire st key ns limit window now).2 = st) := by
  have hne : ¬ (1 ≤ acquirePostRefill st key ns limit window now) := not_le.mpr ht
  simp only [acquirePostRefill] at hne
  refine ⟨?_, ?_, ?_, ?_⟩
  · simp only [LocalRateLimiter.acquire, if_neg hne]
  · simp only [LocalRateLimiter.acquire, if_neg hne]
    simp [acquirePostRefill, acquireBucketRate, refillTokens]
  · simp only [LocalRateLimiter.acquire, if_neg hne]
  · intro v hv
    simp only [getBucket, hv] at hne
    simp only [LocalRateLimiter.acquire, getBucket, hv, if_neg hne]

/-- A single-tier limiter whose bucket for `"k"` is empty at time 0. -/
def emptyBucketLimiter : LocalRateLimiter :=
  ⟨100, 60, [("k", (0, 0, 1/12))]⟩

/-- Witness for C5: the exhausted bucket `"k"` (0 tokens, rate 1/12) is
rejected at time 0 with `remaining = 0` and `reset_time = 0 + (1-0)/(1/12)`,
and the state is left untouched. -/
theorem acquire_reject_result_inst :
    (LocalRateLimiter.acquire emptyBucketLimiter "k" none (some 5) (some 60) 0).1.1 = false ∧
    (LocalRateLimiter.acquire emptyBucketLimiter "k" none (some 5) (some 60) 0).1.2 =
      ⟨0, 0 + (1 - acquirePostRefill emptyBucketLimiter "k" none (some 5) (some 60) 0) /
            acquireBucketRate emptyBucketLimiter "k" none (some 5) (some 60) 0,
        orDefault (some 5) emptyBucketLimiter.default_limit,
        orDefault (some 60) emptyBucketLimiter.default_window⟩ ∧
    (LocalRateLimiter.acquire emptyBucketLimiter "k" none (some 5) (some 60) 0).2 =
      (getBucket emptyBucketLimiter (getBucketKey "k" none)
        (some (orDefault (some 5) emptyBucketLimiter.default_limit))
        (some (orDefault (some 60) emptyBucketLimiter.default_window)) 0).2 ∧
    (∀ v, dictGet emptyBucketLimiter.buckets (getBucketKey "k" none) = some v →
      (LocalRateLimiter.acquire emptyBucketLimiter "k" none (some 5) (some 60) 0).2
        = emptyBucketLimiter) :=
  acquire_reject_result emptyBucketLimiter "k" none (some 5) (some 60) 0
    (by norm_num [acquirePostRefill, getBucket, getBucketKey, orDefault,
      refillTokens, dictGet, emptyBucketLimiter, min_def])

/-- **C10.** For a key already present in the bucket map, a rejected
`acquire` leaves the limiter state — in particular that key's stored
`(tokens, last_update, rate)` triple — completely unchanged: the refilled
count and new timestamp computed during the check are not written back. -/
theorem acquire_reject_present_key_frame (st : LocalRateLimiter) (key : String)
    (ns : Option String) (limit window : Option ℕ) (now : ℚ) (v : ℚ × ℚ × ℚ)
    (hpres : dictGet st.buckets (getBucketKey key ns) = some v)
    (hrej : (LocalRateLimiter.acquire st key ns limit window now).1.1 = false) :
    (LocalRateLimiter.acquire st key ns limit window now).2 = st ∧
    dictGet (LocalRateLimiter.acquire st key ns limit window now).2.buckets
      (getBucketKey key ns) = some v := by
  by_cases hc : 1 ≤ (refillTokens v.1 v.2.1 v.2.2 (orDefault limit st.default_limit) now).1
  · exfalso
    simp only [LocalRateLimiter.acquire, getBucket, hpres, if_pos hc] at hrej
    exact Bool.noConfusion hrej
  · have hstate : (LocalRateLimiter.acquire st key ns limit window now).2 = st := by
      simp only [LocalRateLimiter.acquire, getBucket, hpres, if_neg hc]
    exact ⟨hstate, by rw [hstate]; exact hpres⟩

/-- Witness for C10 at the exhausted bucket `"k"` of
`emptyBucketLimiter`, rejected at time 0. -/
theorem acquire_reject_present_key_frame_inst :
    (LocalRateLimiter.acquire emptyBucketLimiter "k" none (some 5) (some 60) 0).2
      = emptyBucketLimiter ∧
    dictGet (LocalRateLimiter.acquire emptyBucketLimiter "k" none (some 5) (some 60) 0).2.buckets
      (getBucketKey "k" none) = some (0, 0, 1/12) :=
  acquire_reject_present_key_frame emptyBucketLimiter "k" none (some 5) (some 60) 0
    (0, 0, 1/12) rfl
    (by norm_num [LocalRateLimiter.acquire, getBucket, getBucketKey, orDefault,
      refillTokens, dictGet, emptyBucketLimiter, min_def])

/-- A fresh single-tier limiter (defaults 100 requests / 60 s) with no
buckets yet. -/
def freshLimiter : LocalRateLimiter := ⟨100, 60, []⟩

/-- The limiter state after `n` tokens of the five have been consumed
from the bucket `"k"` created at time 0 with `limit=5, window=60`. -/
def limiterAfter (tokensLeft : ℚ) : LocalRateLimiter :=
  ⟨100, 60, [("k", (tokensLeft, 0, 1/12))]⟩

/-- **C6.** With `limit=5, window=60` on a fresh key, five `acquire`
calls at `t=0` all succeed, and the sixth at `t=0` fails with
`remaining = 0` and `reset_time = 0 + (1 - 0)/(5/60) = 12`. -/
theorem acquire_five_then_reject :
    LocalRateLimiter.acquire freshLimiter "k" none (some 5) (some 60) 0
      = ((true, ⟨4, 12, 5, 60⟩), limiterAfter 4) ∧
    LocalRateLimiter.acquire (limiterAfter 4) "k" none (some 5) (some 60) 0
      = ((true, ⟨3, 12, 5, 60⟩), limiterAfter 3) ∧
    LocalRateLimiter.acquire (limiterAfter 3) "k" none (some 5) (some 60) 0
      = ((true, ⟨2, 12, 5, 60⟩), limiterAfter 2) ∧
    LocalRateLimiter.acquire (limiterAfter 2) "k" none (some 5) (some 60) 0
      = ((true, ⟨1, 12, 5, 60⟩), limiterAfter 1) ∧
    LocalRateLimiter.acquire (limiterAfter 1) "k" none (some 5) (some 60) 0
      = ((true, ⟨0, 12, 5, 60⟩), limiterAfter 0) ∧
    LocalRateLimiter.acquire (limiterAfter 0) "k" none (some 5) (some 60) 0
      = ((false, ⟨0, 12, 5, 60⟩), limiterAfter 0) := by
  refine ⟨?_, ?_, ?_, ?_, ?_, ?_⟩ <;>
    norm_num [LocalRateLimiter.acquire, getBucket, getBucketKey, orDefault,
      refillTokens, dictGet, dictSet, pyInt, freshLimiter, limiterAfter,
      min_def, Int.floor_ofNat]

/-! ## Well-formedness of multi-tier limiter states -/

/-- A bucket is well formed at time `now` when its balance lies in
`[0, max_tokens]`, its refill rate is non-negative and its timestamp does
not lie in the future (the clock is non-decreasing). -/
def BucketWF (b : RateLimitBucket) (now : ℚ) : Prop :=
  0 ≤ b.tokens ∧ b.tokens ≤ (b.max_tokens : ℚ) ∧
  0 ≤ b.refill_rate ∧ b.last_update ≤ now

instance (b : RateLimitBucket) (now : ℚ) : Decidable (BucketWF b now) := by
  unfold BucketWF; infer_instance

/-- Every bucket of a tier dict is well formed. -/
def TierWF (d : List (String × RateLimitBucket)) (now : ℚ) : Prop :=
  ∀ p ∈ d, BucketWF p.2 now

instance (d : List (String × RateLimitBucket)) (now : ℚ) :
    Decidable (TierWF d now) := by
  unfold TierWF; infer_instance

/-- Every tier dict of an identity map is well formed. -/
def MapWF (m : List (String × List (String × RateLimitBucket))) (now : ℚ) : Prop :=
  ∀ p ∈ m, TierWF p.2 now

instance (m : List (String × List (String × RateLimitBucket))) (now : ℚ) :
    Decidable (MapWF m now) := by
  unfold MapWF; infer_instance

/-- A multi-tier limiter state is well formed at time `now`. -/
def StateWF (st : RateLimiter) (now : ℚ) : Prop :=
  BucketWF st.global_bucket now ∧ MapWF st.user_buckets now ∧
  MapWF st.ip_buckets now

instance (st : RateLimiter) (now : ℚ) : Decidable (StateWF st now) := by
  unfold StateWF; infer_instance

/-- Token counts do not decrease from tier dict `d` to `d2`. -/
def tierNoDecrease (d d2 : List (String × RateLimitBucket)) : Prop :=
  ∀ k b, dictGet d k = some b →
    ∃ b2, dictGet d2 k = some b2 ∧ b.tokens ≤ b2.tokens

/-- Token counts do not decrease from identity map `m` to `m2`. -/
def mapNoDecrease (m m2 : List (String × List (String × RateLimitBucket))) : Prop :=
  ∀ u d, dictGet m u = some d →
    ∃ d2, dictGet m2 u = some d2 ∧ tierNoDecrease d d2

/-- No bucket anywhere in the limiter has lost tokens between `st` and `st2`. -/
def noTokenDecrease (st st2 : RateLimiter) : Prop :=
  st.global_bucket.tokens ≤ st2.global_bucket.tokens ∧
  mapNoDecrease st.user_buckets st2.user_buckets ∧
  mapNoDecrease st.ip_buckets st2.ip_buckets

theorem tierNoDecrease_refl (d : List (String × RateLimitBucket)) :
    tierNoDecrease d d :=
  fun _ b hb => ⟨b, hb, le_refl _⟩

theorem mapNoDecrease_refl (m : List (String × List (String × RateLimitBucket))) :
    mapNoDecrease m m :=
  fun _ d hd => ⟨d, hd, tierNoDecrease_refl d⟩

/-- The refill step never lowers a well-formed bucket's balance. -/
theorem refillBucket_mono (b : RateLimitBucket) (now : ℚ) (h : BucketWF b now) :
    b.tokens ≤ (refillBucket b now).tokens := by
  obtain ⟨h0, hmax, hrate, hlast⟩ := h
  have he : 0 ≤ (now - b.last_update) * b.refill_rate :=
    mul_nonneg (by linarith) hrate
  simp only [refillBucket]
  exact le_min hmax (by linarith)

/-- The refill step preserves well-formedness and re-establishes the
`0 ≤ tokens ≤ max_tokens` bound. -/
theorem refillBucket_WF (b : RateLimitBucket) (now : ℚ) (h : BucketWF b now) :
    BucketWF (refillBucket b now) now := by
  obtain ⟨h0, hmax, hrate, hlast⟩ := h
  refine ⟨le_trans h0 (refillBucket_mono b now ⟨h0, hmax, hrate, hlast⟩), ?_, hrate, le_refl now⟩
  simp only [refillBucket]
  exact min_le_left _ _

/-- A fresh full-allotment bucket is well formed. -/
theorem freshBucket_WF (limit : ℕ) (now : ℚ) (window : ℕ) :
    BucketWF (freshBucket limit now window) now := by
  refine ⟨?_, ?_, ?_, le_refl now⟩
  · simp [freshBucket]
  · simp [freshBucket]
  · simp only [freshBucket]
    positivity

/-- The refill-and-check loop never lowers any bucket's balance. -/
theorem refillCheckList_noDecrease (d : List (String × RateLimitBucket))
    (now : ℚ) (h : TierWF d now) :
    tierNoDecrease d (refillCheckList d now).2 := by
  induction d with
  | nil => exact tierNoDecrease_refl []
  | cons p rest ih =>
      obtain ⟨k0, b0⟩ := p
      have hwb : BucketWF b0 now := h (k0, b0) (List.mem_cons_self _ _)
      have hrest : TierWF rest now := fun q hq => h q (List.mem_cons_of_mem _ hq)
      intro k b hb
      by_cases hk : k0 = k
      · subst hk
        simp only [dictGet, if_pos rfl] at hb
        obtain rfl : b0 = b := Option.some.injEq _ _ ▸ hb.symm ▸ rfl
        by_cases hc : (refillBucket b0 now).tokens < 1
        · refine ⟨refillBucket b0 now, ?_, refillBucket_mono b0 now hwb⟩
          simp [refillCheckList, if_pos hc, dictGet]
        · refine ⟨refillBucket b0 now, ?_, refillBucket_mono b0 now hwb⟩
          simp [refillCheckList, if_neg hc, dictGet]
      · simp only [dictGet, if_neg hk] at hb
        by_cases hc : (refillBucket b0 now).tokens < 1
        · refine ⟨b, ?_, le_refl _⟩
          simp [refillCheckList, if_pos hc, dictGet, hk, hb]
        · obtain ⟨b2, hb2, hle⟩ := ih hrest k b hb
          refine ⟨b2, ?_, hle⟩
          simp [refillCheckList, if_neg hc, dictGet, hk, hb2]

/-- If some bucket of the dict would hold fewer than one token after its
refill, the refill-and-check loop reports failure. -/
theorem refillCheckList_false (d : List (String × RateLimitBucket)) (now : ℚ)
    (h : ∃ p ∈ d, (refillBucket p.2 now).tokens < 1) :
    (refillCheckList d now).1 = false := by
  induction d with
  | nil => simp at h
  | cons p rest ih =>
      obtain ⟨k0, b0⟩ := p
      by_cases hc : (refillBucket b0 now).tokens < 1
      · simp [refillCheckList, if_pos hc]
      · obtain ⟨q, hq, hqlt⟩ := h
        rcases List.mem_cons.mp hq with rfl | hq2
        · exact absurd hqlt hc
        · have := ih ⟨q, hq2, hqlt⟩
          simp [refillCheckList, if_neg hc, this]

/-- When the refill-and-check loop succeeds, every bucket it leaves
behind holds at least one token. -/
theorem refillCheckList_true_tokens (d : List (String × RateLimitBucket))
    (now : ℚ) (h : (refillCheckList d now).1 = true) :
    ∀ p ∈ (refillCheckList d now).2, 1 ≤ p.2.tokens := by
  induction d with
  | nil => intro p hp; simp [refillCheckList] at hp
  | cons q rest ih =>
      obtain ⟨k0, b0⟩ := q
      by_cases hc : (refillBucket b0 now).tokens < 1
      · simp [refillCheckList, if_pos hc] at h
      · simp only [refillCheckList, if_neg hc] at h ⊢
        intro p hp
        rcases List.mem_cons.mp hp with rfl | hp2
        · exact not_lt.mp hc
        · exact ih h p hp2

/-- The refill-and-check loop preserves tier well-formedness. -/
theorem refillCheckList_WF (d : List (String × RateLimitBucket)) (now : ℚ)
    (h : TierWF d now) : TierWF (refillCheckList d now).2 now := by
  induction d with
  | nil => intro p hp; simp [refillCheckList] at hp
  | cons q rest ih =>
      obtain ⟨k0, b0⟩ := q
      have hwb : BucketWF b0 now := h (k0, b0) (List.mem_cons_self _ _)
      have hrest : TierWF rest now := fun r hr => h r (List.mem_cons_of_mem _ hr)
      by_cases hc : (refillBucket b0 now).tokens < 1
      · simp only [refillCheckList, if_pos hc]
        intro p hp
        rcases List.mem_cons.mp hp with rfl | hp2
        · exact refillBucket_WF b0 now hwb
        · exact hrest p hp2
      · simp only [refillCheckList, if_neg hc]
        intro p hp
        rcases List.mem_cons.mp hp with rfl | hp2
        · exact refillBucket_WF b0 now hwb
        · exact ih hrest p hp2

/-- `dictGet` hits are members of the association list. -/
theorem dictGet_mem {β : Type} (d : List (String × β)) (k : String) (v : β)
    (h : dictGet d k = some v) : (k, v) ∈ d := by
  induction d with
  | nil => simp [dictGet] at h
  | cons p rest ih =>
      by_cases hk : p.1 = k
      · simp only [dictGet, if_pos hk] at h
        obtain ⟨k1, v1⟩ := p
        cases h
        cases hk
        exact List.mem_cons_self _ _
      · simp only [dictGet, if_neg hk] at h
        exact List.mem_cons_of_mem _ (ih h)

/-- An identity stage never lowers any bucket balance of any identity
already present in the map. -/
theorem tierCheck_noDecrease (m : List (String × List (String × RateLimitBucket)))
    (key : String) (mk0 : List (String × RateLimitBucket)) (now : ℚ)
    (hm : MapWF m now) :
    mapNoDecrease m (tierCheck m key mk0 now).2 := by
  intro u d hd
  by_cases hu : u = key
  · subst hu
    have hm1 : (match dictGet m u with
        | some _ => m
        | none => dictSet m u mk0) = m := by simp [hd]
    have hTier : TierWF d now := hm (u, d) (dictGet_mem m u d hd)
    refine ⟨(refillCheckList d now).2, ?_, refillCheckList_noDecrease d now hTier⟩
    simp only [tierCheck, hm1, hd, Option.getD_some]
    exact dictGet_set_self m u (refillCheckList d now).2
  · refine ⟨d, ?_, tierNoDecrease_refl d⟩
    simp only [tierCheck]
    rw [dictGet_set_ne _ _ _ _ hu]
    cases hmk : dictGet m key with
    | some d0 => simpa [hmk] using hd
    | none => simpa [hmk, dictGet_set_ne _ _ _ _ hu] using hd

/-- If some bucket of the present identity's tier dict would fall below
one token after refill, the identity stage fails. -/
theorem tierCheck_false (m : List (String × List (String × RateLimitBucket)))
    (key : String) (mk0 d : List (String × RateLimitBucket)) (now : ℚ)
    (hd : dictGet m key = some d)
    (h : ∃ p ∈ d, (refillBucket p.2 now).tokens < 1) :
    (tierCheck m key mk0 now).1 = false := by
  simp only [tierCheck, hd, Option.getD_some]
  exact refillCheckList_false d now h

/-- The identity stage preserves map well-formedness, given that the
freshly created tier dict is well formed. -/
theorem tierCheck_WF (m : List (String × List (String × RateLimitBucket)))
    (key : String) (mk0 : List (String × RateLimitBucket)) (now : ℚ)
    (hm : MapWF m now) (hmk : TierWF mk0 now) :
    MapWF (tierCheck m key mk0 now).2 now := by
  have hm1 : MapWF (match dictGet m key with
      | some _ => m
      | none => dictSet m key mk0) now := by
    cases hg : dictGet m key with
    | some d0 => simpa using hm
    | none =>
        intro p hp
        rcases mem_dictSet _ _ _ _ hp with rfl | hp2
        · exact hmk
        · exact hm p hp2
  intro p hp
  simp only [tierCheck] at hp
  rcases mem_dictSet _ _ _ _ hp with rfl | hp2
  · have hTier : TierWF ((dictGet (match dictGet m key with
        | some _ => m
        | none => dictSet m key mk0) key).getD []) now := by
      cases hg2 : dictGet (match dictGet m key with
          | some _ => m
          | none => dictSet m key mk0) key with
      | some d1 => exact Option.getD_some ▸ hm1 (key, d1) (dictGet_mem _ _ _ hg2)
      | none => intro q hq; simp at hq
    exact refillCheckList_WF _ now hTier
  · exact hm1 p hp2

/-- When the identity stage succeeds, every bucket it wrote back for the
checked identity holds at least one token. -/
theorem tierCheck_true_tokens (m : List (String × List (String × RateLimitBucket)))
    (key : String) (mk0 : List (String × RateLimitBucket)) (now : ℚ)
    (h : (tierCheck m key mk0 now).1 = true) :
    ∀ p ∈ (dictGet (tierCheck m key mk0 now).2 key).getD [], 1 ≤ p.2.tokens := by
  simp only [tierCheck] at h ⊢
  rw [dictGet_set_self]
  simp only [Option.getD_some]
  exact refillCheckList_true_tokens _ now h

/-- Consuming one token from each bucket of a tier whose buckets all hold
at least one token yields a well-formed tier. -/
theorem consumeOne_WF (d : List (String × RateLimitBucket)) (now : ℚ)
    (hwf : TierWF d now) (h1 : ∀ p ∈ d, 1 ≤ p.2.tokens) :
    TierWF (consumeOne d) now := by
  intro p hp
  simp only [consumeOne, List.mem_map] at hp
  obtain ⟨q, hq, rfl⟩ := hp
  obtain ⟨hq0, hqmax, hqrate, hqlast⟩ := hwf q hq
  have hq1 : 1 ≤ q.2.tokens := h1 q hq
  exact ⟨by simpa using by linarith, by simpa using by linarith, hqrate, hqlast⟩

/-- The seven buckets consulted by `check_rate_limit` for `(userId, ip)`:
the global bucket, the user's tier buckets and the IP's tier buckets
(empty collections for identities not yet tracked). -/
def sevenBuckets (st : RateLimiter) (userId ip : String) :
    List RateLimitBucket :=
  st.global_bucket ::
    (((dictGet st.user_buckets userId).getD []).map Prod.snd ++
     ((dictGet st.ip_buckets ip).getD []).map Prod.snd)

/-- **C1 (amended).** In a well-formed state, if any of the seven buckets
would hold fewer than one token after its refill, `check_rate_limit`
returns `False`, and such a failed call consumes nothing: no bucket's
token count decreases (buckets examined before the failing tier are
refilled in place, which may *increase* their counts — they are not left
bit-for-bit unchanged). -/
theorem checkRateLimit_reject_consumes_nothing (cfg : RateConfig)
    (st : RateLimiter) (userId ip : String) (now : ℚ) (hwf : StateWF st now) :
    ((∃ b ∈ sevenBuckets st userId ip, (refillBucket b now).tokens < 1) →
      (checkRateLimit cfg st userId ip now).1 = false) ∧
    ((checkRateLimit cfg st userId ip now).1 = false →
      noTokenDecrease st (checkRateLimit cfg st userId ip now).2) := by
  obtain ⟨hgwf, huwf, hiwf⟩ := hwf
  constructor
  · rintro ⟨b, hb, hlt⟩
    simp only [checkRateLimit]
    by_cases hgc : (refillBucket st.global_bucket now).tokens < 1
    · simp [hgc]
    · rw [if_neg hgc]
      simp only [sevenBuckets, List.mem_cons, List.mem_append, List.mem_map] at hb
      rcases hb with rfl | ⟨p, hp, rfl⟩ | ⟨p, hp, rfl⟩
      · exact absurd hlt hgc
      · cases hud : dictGet st.user_buckets userId with
        | none => rw [hud] at hp; simp at hp
        | some d =>
            rw [hud] at hp
            simp only [Option.getD_some] at hp
            have hfalse :
                (tierCheck st.user_buckets userId (newUserBuckets cfg now) now).1
                  = false :=
              tierCheck_false _ _ _ d now hud ⟨p, hp, hlt⟩
            simp [hfalse]
      · cases hid : dictGet st.ip_buckets ip with
        | none => rw [hid] at hp; simp at hp
        | some d =>
            rw [hid] at hp
            simp only [Option.getD_some] at hp
            have hfalse :
                (tierCheck st.ip_buckets ip (newIpBuckets cfg now) now).1 = false :=
              tierCheck_false _ _ _ d now hid ⟨p, hp, hlt⟩
            by_cases huc :
                (tierCheck st.user_buckets userId (newUserBuckets cfg now) now).1
            · simp [huc, hfalse]
            · simp [huc]
  · intro hres
    simp only [checkRateLimit] at hres ⊢
    by_cases hgc : (refillBucket st.global_bucket now).tokens < 1
    · simp only [if_pos hgc]
      exact ⟨refillBucket_mono _ _ hgwf, mapNoDecrease_refl _, mapNoDecrease_refl _⟩
    · simp only [if_neg hgc] at hres ⊢
      by_cases huc :
          (tierCheck st.user_buckets userId (newUserBuckets cfg now) now).1
      · by_cases hic : (tierCheck st.ip_buckets ip (newIpBuckets cfg now) now).1
        · simp [huc, hic] at hres
        · simp only [huc, hic, if_true, Bool.false_eq_true, if_false]
          exact ⟨refillBucket_mono _ _ hgwf,
            tierCheck_noDecrease _ _ _ _ huwf,
            tierCheck_noDecrease _ _ _ _ hiwf⟩
      · simp only [huc, Bool.false_eq_true, if_false]
        exact ⟨refillBucket_mono _ _ hgwf,
          tierCheck_noDecrease _ _ _ _ huwf, mapNoDecrease_refl _⟩

/-- A reachable multi-tier state: the global bucket holds 100 tokens, the
user `"u"` has exhausted the minute bucket (0 of 2 tokens) and the IP
`"i"` still has full buckets; every `last_update` is 0. -/
def exhaustedUserState : RateLimiter :=
  { global_bucket := ⟨100, 0, 1900, 95/3⟩,
    user_buckets :=
      [("u", [("minute", ⟨0, 0, 2, 1/30⟩), ("hour", ⟨60, 0, 60, 1/60⟩),
              ("day", ⟨300, 0, 300, 1/288⟩)])],
    ip_buckets :=
      [("i", [("minute", ⟨10, 0, 10, 1/6⟩), ("hour", ⟨200, 0, 200, 1/18⟩),
              ("day", ⟨500, 0, 500, 5/864⟩)])] }

/-- **C1 counterexample.** At time 6 the user-minute bucket of
`exhaustedUserState` is one of the seven buckets and holds fewer than one
token after refill (1/5), so `check` returns `False` — but the call *does*
modify buckets: the global bucket's token count changes from 100 to 290
(refilled in place), and the diagnostic snapshot of `remaining_tokens`
changes with it.  The failed call is not free of bucket modifications. -/
theorem checkRateLimit_failed_call_changes_tokens :
    ((⟨0, 0, 2, 1/30⟩ : RateLimitBucket) ∈ sevenBuckets exhaustedUserState "u" "i" ∧
      (refillBucket ⟨0, 0, 2, 1/30⟩ 6).tokens < 1) ∧
    (checkRateLimit mindraConfig exhaustedUserState "u" "i" 6).1 = false ∧
    (checkRateLimit mindraConfig exhaustedUserState "u" "i" 6).2.global_bucket.tokens
      = 290 ∧
    exhaustedUserState.global_bucket.tokens = 100 ∧
    (getRemainingTokens
        (checkRateLimit mindraConfig exhaustedUserState "u" "i" 6).2 "u" "i").1 ≠
      (getRemainingTokens exhaustedUserState "u" "i").1 := by
  refine ⟨⟨?_, ?_⟩, ?_, ?_, rfl, ?_⟩
  · simp [sevenBuckets, exhaustedUserState, dictGet]
  · norm_num [refillBucket, min_def]
  · norm_num [checkRateLimit, tierCheck, refillCheckList, refillBucket,
      dictGet, dictSet, newUserBuckets, newIpBuckets, freshBucket, consumeOne,
      mindraConfig, exhaustedUserState, min_def]
  · norm_num [checkRateLimit, tierCheck, refillCheckList, refillBucket,
      dictGet, dictSet, newUserBuckets, newIpBuckets, freshBucket, consumeOne,
      mindraConfig, exhaustedUserState, min_def]
  · norm_num [checkRateLimit, tierCheck, refillCheckList, refillBucket,
      dictGet, dictSet, dictGetDefault, getRemainingTokens, pyInt,
      newUserBuckets, newIpBuckets, freshBucket, consumeOne,
      mindraConfig, exhaustedUserState, min_def, Int.floor_ofNat,
      (by decide : ¬ (("minute" : String) = "hour")),
      (by decide : ¬ (("minute" : String) = "day")),
      (by decide : ¬ (("hour" : String) = "day"))]

/-- Witness for C1 at `exhaustedUserState`, time 6: the state is well
formed, so the amended theorem applies there. -/
theorem checkRateLimit_reject_consumes_nothing_inst :
    ((∃ b ∈ sevenBuckets exhaustedUserState "u" "i",
        (refillBucket b 6).tokens < 1) →
      (checkRateLimit mindraConfig exhaustedUserState "u" "i" 6).1 = false) ∧
    ((checkRateLimit mindraConfig exhaustedUserState "u" "i" 6).1 = false →
      noTokenDecrease exhaustedUserState
        (checkRateLimit mindraConfig exhaustedUserState "u" "i" 6).2) :=
  checkRateLimit_reject_consumes_nothing mindraConfig exhaustedUserState "u" "i" 6
    (by
      norm_num [StateWF, MapWF, TierWF, BucketWF, exhaustedUserState]
      constructor <;> rintro a b (⟨rfl, rfl⟩ | ⟨rfl, rfl⟩ | ⟨rfl, rfl⟩) <;> norm_num)

theorem minute_ne_hour : ¬ (("minute" : String) = "hour") := by decide

theorem minute_ne_day : ¬ (("minute" : String) = "day") := by decide

theorem hour_ne_day : ¬ (("hour" : String) = "day") := by decide

/-- **C4 (amended).** For a user and IP whose tier dicts are present with
their minute/hour/day buckets, `remaining_tokens` returns the snapshot of
all seven truncated counts and leaves the limiter state completely
unchanged.  (For an identity never seen before it instead raises
`KeyError`, and the `defaultdict` access inserts an empty tier dict for
the missing key — a state mutation; see the counterexample.) -/
theorem getRemainingTokens_snapshot_pure (st : RateLimiter) (userId ip : String)
    (du di : List (String × RateLimitBucket)) (um uh ud im ihb idy : RateLimitBucket)
    (hu : dictGet st.user_buckets userId = some du)
    (hum : dictGet du "minute" = some um) (huh : dictGet du "hour" = some uh)
    (hud : dictGet du "day" = some ud)
    (hi : dictGet st.ip_buckets ip = some di)
    (him : dictGet di "minute" = some im) (hih : dictGet di "hour" = some ihb)
    (hid : dictGet di "day" = some idy) :
    getRemainingTokens st userId ip =
      (some ⟨pyInt st.global_bucket.tokens, pyInt um.tokens, pyInt uh.tokens,
        pyInt ud.tokens, pyInt im.tokens, pyInt ihb.tokens, pyInt idy.tokens⟩, st) := by
  simp [getRemainingTokens, dictGetDefault, hu, hum, huh, hud, hi, him, hih, hid]

/-- The state used for the C4 counterexample: no per-user or per-IP
buckets exist yet. -/
def noIdentityState : RateLimiter :=
  { global_bucket := ⟨5, 0, 1900, 95/3⟩, user_buckets := [], ip_buckets := [] }

/-- **C4 counterexample.** Calling `remaining_tokens` for a user never
seen before does mutate the limiter: the `defaultdict` access inserts the
key `"u"` (bound to an empty tier dict) into `user_buckets`, changing the
map's key set, and the call raises `KeyError` instead of returning a
snapshot. -/
theorem getRemainingTokens_unseen_user_mutates :
    (getRemainingTokens noIdentityState "u" "i").1 = none ∧
    (getRemainingTokens noIdentityState "u" "i").2.user_buckets = [("u", [])] ∧
    noIdentityState.user_buckets = [] := by
  refine ⟨?_, ?_, rfl⟩ <;>
    simp [getRemainingTokens, dictGetDefault, dictGet, noIdentityState]

/-- Witness for C4 at `exhaustedUserState`, whose user `"u"` and IP `"i"`
both have full tier dicts. -/
theorem getRemainingTokens_snapshot_pure_inst :
    getRemainingTokens exhaustedUserState "u" "i" =
      (some ⟨pyInt (100 : ℚ), pyInt (0 : ℚ), pyInt (60 : ℚ), pyInt (300 : ℚ),
        pyInt (10 : ℚ), pyInt (200 : ℚ), pyInt (500 : ℚ)⟩, exhaustedUserState) :=
  getRemainingTokens_snapshot_pure exhaustedUserState "u" "i"
    [("minute", ⟨0, 0, 2, 1/30⟩), ("hour", ⟨60, 0, 60, 1/60⟩), ("day", ⟨300, 0, 300, 1/288⟩)]
    [("minute", ⟨10, 0, 10, 1/6⟩), ("hour", ⟨200, 0, 200, 1/18⟩), ("day", ⟨500, 0, 500, 5/864⟩)]
    ⟨0, 0, 2, 1/30⟩ ⟨60, 0, 60, 1/60⟩ ⟨300, 0, 300, 1/288⟩
    ⟨10, 0, 10, 1/6⟩ ⟨200, 0, 200, 1/18⟩ ⟨500, 0, 500, 5/864⟩
    (by simp [exhaustedUserState, dictGet])
    (by simp [dictGet])
    (by simp [dictGet, minute_ne_hour])
    (by simp [dictGet, minute_ne_day, hour_ne_day])
    (by simp [exhaustedUserState, dictGet])
    (by simp [dictGet])
    (by simp [dictGet, minute_ne_hour])
    (by simp [dictGet, minute_ne_day, hour_ne_day])

/-- Resolving an already-resolved limit or window is the identity,
mirroring the double `x or default` resolution in `acquire` and
`_get_bucket`. -/
theorem orDefault_idem (x : Option ℕ) (d : ℕ) :
    orDefault (some (orDefault x d)) d = orDefault x d := by
  cases x with
  | none => simp [orDefault]
  | some n =>
      by_cases h : n = 0 <;> simp [orDefault, h]

theorem newUserBuckets_WF (cfg : RateConfig) (now : ℚ) :
    TierWF (newUserBuckets cfg now) now := by
  intro p hp
  simp only [newUserBuckets, List.mem_cons, List.not_mem_nil, or_false] at hp
  rcases hp with rfl | rfl | rfl <;> exact freshBucket_WF _ _ _

theorem newIpBuckets_WF (cfg : RateConfig) (now : ℚ) :
    TierWF (newIpBuckets cfg now) now := by
  intro p hp
  simp only [newIpBuckets, List.mem_cons, List.not_mem_nil, or_false] at hp
  rcases hp with rfl | rfl | rfl <;> exact freshBucket_WF _ _ _

/-- Well-formedness of a single-tier limiter at time `now`: every stored
bucket tuple has a non-negative balance, a non-negative rate and a
timestamp that is not in the future. -/
def AcqWF (st : LocalRateLimiter) (now : ℚ) : Prop :=
  ∀ k v, dictGet st.buckets k = some v → 0 ≤ v.1 ∧ 0 ≤ v.2.2 ∧ v.2.1 ≤ now

/-- **C7.** Under a non-decreasing clock the token bounds hold:
(1) the single-tier refill step returns a balance in `[0, max_tokens]`;
(2) the multi-tier refill leaves a well-formed bucket in
`[0, max_tokens]`;
(3) `acquire` preserves single-tier well-formedness (a token is only
consumed when at least one is present, so balances stay non-negative);
(4) `check_rate_limit` preserves multi-tier well-formedness, including
`0 ≤ tokens ≤ max_tokens` for every bucket it touches. -/
theorem bucket_token_bounds_invariant :
    (∀ (tokens lastUpdate rate : ℚ) (maxTokens : ℕ) (now : ℚ),
        0 ≤ tokens → 0 ≤ rate → lastUpdate ≤ now →
        0 ≤ (refillTokens tokens lastUpdate rate maxTokens now).1 ∧
        (refillTokens tokens lastUpdate rate maxTokens now).1 ≤ (maxTokens : ℚ)) ∧
    (∀ (b : RateLimitBucket) (now : ℚ), BucketWF b now →
        0 ≤ (refillBucket b now).tokens ∧
        (refillBucket b now).tokens ≤ ((refillBucket b now).max_tokens : ℚ)) ∧
    (∀ (st : LocalRateLimiter) (key : String) (ns : Option String)
        (limit window : Option ℕ) (now : ℚ), AcqWF st now →
        AcqWF (LocalRateLimiter.acquire st key ns limit window now).2 now) ∧
    (∀ (cfg : RateConfig) (st : RateLimiter) (userId ip : String) (now : ℚ),
        StateWF st now → StateWF (checkRateLimit cfg st userId ip now).2 now) := by
  refine ⟨?_, ?_, ?_, ?_⟩
  · intro tokens lastUpdate rate maxTokens now h0 hr hl
    constructor
    · exact le_min (by positivity)
        (by have : 0 ≤ (now - lastUpdate) * rate := mul_nonneg (by linarith) hr
            linarith)
    · exact min_le_left _ _
  · intro b now h
    have h2 := refillBucket_WF b now h
    exact ⟨h2.1, h2.2.1⟩
  · intro st key ns limit window now hst
    intro k v hv
    simp only [LocalRateLimiter.acquire, getBucket, orDefault_idem] at hv
    cases hb : dictGet st.buckets (getBucketKey key ns) with
    | some b =>
        rw [hb] at hv
        simp only at hv
        by_cases hc : 1 ≤ (refillTokens b.1 b.2.1 b.2.2 (orDefault limit st.default_limit) now).1
        · rw [if_pos hc] at hv
          simp only at hv
          by_cases hk : k = getBucketKey key ns
          · subst hk
            rw [dictGet_set_self] at hv
            cases hv
            refine ⟨?_, ?_, ?_⟩
            · show (0:ℚ) ≤ _ - 1
              linarith
            · exact (hst _ b hb).2.1
            · show (refillTokens b.1 b.2.1 b.2.2 (orDefault limit st.default_limit) now).2 ≤ now
              simp [refillTokens]
          · rw [dictGet_set_ne _ _ _ _ hk] at hv
            exact hst k v hv
        · rw [if_neg hc] at hv
          exact hst k v hv
    | none =>
        rw [hb] at hv
        simp only at hv
        by_cases hc : 1 ≤ (refillTokens
            ((orDefault limit st.default_limit : ℕ) : ℚ) now
            (((orDefault limit st.default_limit : ℕ) : ℚ) /
              ((orDefault window st.default_window : ℕ) : ℚ))
            (orDefault limit st.default_limit) now).1
        · rw [if_pos hc] at hv
          simp only at hv
          by_cases hk : k = getBucketKey key ns
          · subst hk
            rw [dictGet_set_self] at hv
            cases hv
            refine ⟨?_, ?_, ?_⟩
            · show (0:ℚ) ≤ _ - 1
              linarith
            · positivity
            · simp [refillTokens]
          · rw [dictGet_set_ne _ _ _ _ hk, dictGet_set_ne _ _ _ _ hk] at hv
            exact hst k v hv
        · rw [if_neg hc] at hv
          simp only at hv
          by_cases hk : k = getBucketKey key ns
          · subst hk
            rw [dictGet_set_self] at hv
            cases hv
            refine ⟨by positivity, by positivity, le_refl now⟩
          · rw [dictGet_set_ne _ _ _ _ hk] at hv
            exact hst k v hv
  · intro cfg st userId ip now hwf
    obtain ⟨hg, hu, hi⟩ := hwf
    simp only [checkRateLimit]
    by_cases hgc : (refillBucket st.global_bucket now).tokens < 1
    · simp only [if_pos hgc]
      exact ⟨refillBucket_WF _ _ hg, hu, hi⟩
    · simp only [if_neg hgc]
      have hu2 : MapWF (tierCheck st.user_buckets userId (newUserBuckets cfg now) now).2 now :=
        tierCheck_WF _ _ _ _ hu (newUserBuckets_WF cfg now)
      have hi2 : MapWF (tierCheck st.ip_buckets ip (newIpBuckets cfg now) now).2 now :=
        tierCheck_WF _ _ _ _ hi (newIpBuckets_WF cfg now)
      by_cases huc : (tierCheck st.user_buckets userId (newUserBuckets cfg now) now).1
      · by_cases hic : (tierCheck st.ip_buckets ip (newIpBuckets cfg now) now).1
        · simp only [huc, hic, if_true]
          have hgr := refillBucket_WF _ _ hg
          have h1g : 1 ≤ (refillBucket st.global_bucket now).tokens := not_lt.mp hgc
          refine ⟨?_, ?_, ?_⟩
          · refine ⟨?_, ?_, ?_, ?_⟩ <;> dsimp only
            · linarith [hgr.1]
            · have := hgr.2.1
              linarith
            · exact hgr.2.2.1
            · exact hgr.2.2.2
          · intro p hp
            rcases mem_dictSet _ _ _ _ hp with rfl | hp2
            · refine consumeOne_WF _ now ?_ ?_
              · cases hd : dictGet (tierCheck st.user_buckets userId
                    (newUserBuckets cfg now) now).2 userId with
                | some d1 =>
                    simpa [hd] using hu2 (userId, d1) (dictGet_mem _ _ _ hd)
                | none => intro q hq; simp [hd] at hq
              · exact tierCheck_true_tokens _ _ _ _ huc
            · exact hu2 p hp2
          · intro p hp
            rcases mem_dictSet _ _ _ _ hp with rfl | hp2
            · refine consumeOne_WF _ now ?_ ?_
              · cases hd : dictGet (tierCheck st.ip_buckets ip
                    (newIpBuckets cfg now) now).2 ip with
                | some d1 =>
                    simpa [hd] using hi2 (ip, d1) (dictGet_mem _ _ _ hd)
                | none => intro q hq; simp [hd] at hq
              · exact tierCheck_true_tokens _ _ _ _ hic
            · exact hi2 p hp2
        · simp only [huc, hic, if_true, Bool.false_eq_true, if_false]
          exact ⟨refillBucket_WF _ _ hg, hu2, hi2⟩
      · simp only [huc, Bool.false_eq_true, if_false]
        exact ⟨refillBucket_WF _ _ hg, hu2, hi⟩

/-- Witness for C7: each of the four invariant statements applied at a
concrete input. -/
theorem bucket_token_bounds_invariant_inst :
    (0 ≤ (refillTokens 2 0 (1/2) 5 4).1 ∧
      (refillTokens 2 0 (1/2) 5 4).1 ≤ ((5 : ℕ) : ℚ)) ∧
    (0 ≤ (refillBucket ⟨1, 0, 2, 1/30⟩ 3).tokens ∧
      (refillBucket ⟨1, 0, 2, 1/30⟩ 3).tokens ≤
        ((refillBucket ⟨1, 0, 2, 1/30⟩ 3).max_tokens : ℚ)) ∧
    AcqWF (LocalRateLimiter.acquire freshLimiter "k" none (some 5) (some 60) 0).2 0 ∧
    StateWF (checkRateLimit mindraConfig exhaustedUserState "u" "i" 6).2 6 :=
  ⟨bucket_token_bounds_invariant.1 2 0 (1/2) 5 4 (by norm_num) (by norm_num)
      (by norm_num),
   bucket_token_bounds_invariant.2.1 ⟨1, 0, 2, 1/30⟩ 3 (by norm_num [BucketWF]),
   bucket_token_bounds_invariant.2.2.1 freshLimiter "k" none (some 5) (some 60) 0
     (by intro k v hv; simp [dictGet, freshLimiter] at hv),
   bucket_token_bounds_invariant.2.2.2 mindraConfig exhaustedUserState "u" "i" 6
     (by
       norm_num [StateWF, MapWF, TierWF, BucketWF, exhaustedUserState]
       constructor <;> rintro a b (⟨rfl, rfl⟩ | ⟨rfl, rfl⟩ | ⟨rfl, rfl⟩) <;>
         norm_num)⟩
